import Mathlib

/-!
Shallow embedding of the `page_table_entry` crate's RISC-V Sv39/Sv48 page
table entry (`src/page_table_entry/src/arch/riscv.rs` together with the
generic `MappingFlags` bitset of `src/page_table_entry/src/lib.rs`).

A `Rv64PTE` is a `u64`; we model it as a `Nat` (all the operations below
are bitwise and never overflow 64 bits when their inputs fit, which we track
with explicit `< 2 ^ 64` style hypotheses where it matters).  Bitflags sets
(`MappingFlags`, `PTEFlags`) are modelled as `Nat` bit masks; the bitflags
operations `contains`, `intersects`, `is_empty` and `from_bits_truncate`
are translated literally.  The `COW` cargo feature is taken as enabled, so
the `RSW1 ↔ COW` clauses of the two `From` impls are included.
-/

namespace Rv64

namespace MappingFlags

/-- Rust `MappingFlags::READ = 1 << 0`. -/
def READ : Nat := 1 <<< 0

/-- Rust `MappingFlags::WRITE = 1 << 1`. -/
def WRITE : Nat := 1 <<< 1

/-- Rust `MappingFlags::EXECUTE = 1 << 2`. -/
def EXECUTE : Nat := 1 <<< 2

/-- Rust `MappingFlags::USER = 1 << 3`. -/
def USER : Nat := 1 <<< 3

/-- Rust `MappingFlags::DEVICE = 1 << 4`. -/
def DEVICE : Nat := 1 <<< 4

/-- Rust `MappingFlags::UNCACHED = 1 << 5`. -/
def UNCACHED : Nat := 1 <<< 5

/-- Rust `MappingFlags::COW = 1 << 6` (feature `COW`). -/
def COW : Nat := 1 <<< 6

/-- bitflags `contains`: all bits of `b` are present in `f`. -/
def contains (f b : Nat) : Bool := f &&& b == b

/-- bitflags `is_empty`. -/
def is_empty (f : Nat) : Bool := f == 0

end MappingFlags

namespace PTEFlags

/-- Rust `PTEFlags::V = 1 << 0`. -/
def V : Nat := 1 <<< 0

/-- Rust `PTEFlags::R = 1 << 1`. -/
def R : Nat := 1 <<< 1

/-- Rust `PTEFlags::W = 1 << 2`. -/
def W : Nat := 1 <<< 2

/-- Rust `PTEFlags::X = 1 << 3`. -/
def X : Nat := 1 <<< 3

/-- Rust `PTEFlags::U = 1 << 4`. -/
def U : Nat := 1 <<< 4

/-- Rust `PTEFlags::G = 1 << 5`. -/
def G : Nat := 1 <<< 5

/-- Rust `PTEFlags::A = 1 << 6`. -/
def A : Nat := 1 <<< 6

/-- Rust `PTEFlags::D = 1 << 7`. -/
def D : Nat := 1 <<< 7

/-- Rust `PTEFlags::RSW1 = 1 << 8`. -/
def RSW1 : Nat := 1 <<< 8

/-- Rust `PTEFlags::RSW2 = 1 << 9`. -/
def RSW2 : Nat := 1 <<< 9

/-- The union of all named `PTEFlags` bits (the bitflags "all" mask). -/
def ALL : Nat := V ||| R ||| W ||| X ||| U ||| G ||| A ||| D ||| RSW1 ||| RSW2

/-- bitflags `contains`: all bits of `b` are present in `f`. -/
def contains (f b : Nat) : Bool := f &&& b == b

/-- bitflags `intersects`: `f` and `b` share at least one bit. -/
def intersects (f b : Nat) : Bool := f &&& b != 0

/-- bitflags `from_bits_truncate`: keep only the named bits. -/
def from_bits_truncate (x : Nat) : Nat := x &&& ALL

end PTEFlags

/-- Rust `impl From<PTEFlags> for MappingFlags` (riscv.rs lines 36-60, feature
`COW` enabled): an entry without `V` decodes to the empty set; otherwise
each of `R`, `W`, `X`, `U`, `RSW1` contributes the matching generic bit. -/
def mappingFlagsOfPTEFlags (f : Nat) : Nat :=
  if ! PTEFlags.contains f PTEFlags.V then 0
  else
    (if PTEFlags.contains f PTEFlags.R then MappingFlags.READ else 0) |||
    (if PTEFlags.contains f PTEFlags.W then MappingFlags.WRITE else 0) |||
    (if PTEFlags.contains f PTEFlags.X then MappingFlags.EXECUTE else 0) |||
    (if PTEFlags.contains f PTEFlags.U then MappingFlags.USER else 0) |||
    (if PTEFlags.contains f PTEFlags.RSW1 then MappingFlags.COW else 0)

/-- Rust `impl From<MappingFlags> for PTEFlags` (riscv.rs lines 62-86, feature
`COW` enabled): the empty set encodes to all-zero; a non-empty set always
sets `V` and then each of `READ`, `WRITE`, `EXECUTE`, `USER`, `COW`
contributes the matching hardware bit. -/
def pteFlagsOfMappingFlags (f : Nat) : Nat :=
  if MappingFlags.is_empty f then 0
  else
    PTEFlags.V |||
    (if MappingFlags.contains f MappingFlags.READ then PTEFlags.R else 0) |||
    (if MappingFlags.contains f MappingFlags.WRITE then PTEFlags.W else 0) |||
    (if MappingFlags.contains f MappingFlags.EXECUTE then PTEFlags.X else 0) |||
    (if MappingFlags.contains f MappingFlags.USER then PTEFlags.U else 0) |||
    (if MappingFlags.contains f MappingFlags.COW then PTEFlags.RSW1 else 0)

/-- Rust `Rv64PTE::PHYS_ADDR_MASK = (1 << 54) - (1 << 10)`: bits 10..54. -/
def PHYS_ADDR_MASK : Nat := (1 <<< 54) - (1 <<< 10)

/-- The 64-bit bitwise complement (`!x` on a Rust `u64`). -/
def not64 (x : Nat) : Nat := (2 ^ 64 - 1) ^^^ x

/-- Rust `Rv64PTE::empty()`. -/
def empty : Nat := 0

/-- Rust `Rv64PTE::new_page` (release semantics: the `debug_assert!` is compiled
out): translate the generic flags, force `A` and `D`, and pack the address
shifted right by 2 under `PHYS_ADDR_MASK`.  `is_huge` is ignored. -/
def new_page (paddr flags : Nat) (_is_huge : Bool) : Nat :=
  (pteFlagsOfMappingFlags flags ||| PTEFlags.A ||| PTEFlags.D) |||
    ((paddr >>> 2) &&& PHYS_ADDR_MASK)

/-- Rust `Rv64PTE::new_table`: only the `V` bit plus the packed address. -/
def new_table (paddr : Nat) : Nat :=
  PTEFlags.V ||| ((paddr >>> 2) &&& PHYS_ADDR_MASK)

/-- Rust `Rv64PTE::paddr`: unpack the address field. -/
def paddr (pte : Nat) : Nat := (pte &&& PHYS_ADDR_MASK) <<< 2

/-- Rust `Rv64PTE::flags`: truncate to the named hardware bits, then decode. -/
def flags (pte : Nat) : Nat :=
  mappingFlagsOfPTEFlags (PTEFlags.from_bits_truncate pte)

/-- Rust `Rv64PTE::set_paddr`: replace the address field, keep everything else. -/
def set_paddr (pte a : Nat) : Nat :=
  (pte &&& not64 PHYS_ADDR_MASK) ||| ((a >>> 2) &&& PHYS_ADDR_MASK)

/-- Rust `Rv64PTE::set_flags_arch`: keep only the address field of the old value
and install the given raw hardware flags. -/
def set_flags_arch (pte fl : Nat) : Nat :=
  (pte &&& PHYS_ADDR_MASK) ||| fl

/-- Rust `Rv64PTE::set_flags` (release semantics: the `debug_assert!` is compiled
out): translate the generic flags, force `A` and `D`, delegate to
`set_flags_arch`.  `is_huge` is ignored. -/
def set_flags (pte fl : Nat) (_is_huge : Bool) : Nat :=
  set_flags_arch pte (pteFlagsOfMappingFlags fl ||| PTEFlags.A ||| PTEFlags.D)

/-- Rust `Rv64PTE::bits`. -/
def bits (pte : Nat) : Nat := pte

/-- Rust `Rv64PTE::is_unused`. -/
def is_unused (pte : Nat) : Bool := pte == 0

/-- Rust `Rv64PTE::is_present`. -/
def is_present (pte : Nat) : Bool :=
  PTEFlags.contains (PTEFlags.from_bits_truncate pte) PTEFlags.V

/-- Rust `Rv64PTE::is_dirty`. -/
def is_dirty (pte : Nat) : Bool :=
  PTEFlags.contains (PTEFlags.from_bits_truncate pte) PTEFlags.D

/-- Rust `Rv64PTE::set_dirty`. -/
def set_dirty (pte : Nat) (dirty : Bool) : Nat :=
  if dirty then pte ||| PTEFlags.D else pte &&& not64 PTEFlags.D

/-- Rust `Rv64PTE::is_accessed`. -/
def is_accessed (pte : Nat) : Bool :=
  PTEFlags.contains (PTEFlags.from_bits_truncate pte) PTEFlags.A

/-- Rust `Rv64PTE::set_accessed`. -/
def set_accessed (pte : Nat) (accessed : Bool) : Nat :=
  if accessed then pte ||| PTEFlags.A else pte &&& not64 PTEFlags.A

/-- Rust `Rv64PTE::is_huge`: the entry carries `R` or `X`. -/
def is_huge (pte : Nat) : Bool :=
  PTEFlags.intersects (PTEFlags.from_bits_truncate pte)
    (PTEFlags.R ||| PTEFlags.X)

/-- Rust `Rv64PTE::clear`. -/
def clear (_pte : Nat) : Nat := 0

end Rv64

namespace Rv64

/-! Generic bit-level helper lemmas used throughout. -/

theorem and_lor_right (x y z : Nat) : (x ||| y) &&& z = x &&& z ||| y &&& z := by
  rw [Nat.and_comm, Nat.and_or_distrib_left, Nat.and_comm z x, Nat.and_comm z y]

theorem and_two_pow (x k : Nat) :
    x &&& 2 ^ k = if x.testBit k then 2 ^ k else 0 := by
  apply Nat.eq_of_testBit_eq
  intro i
  rcases eq_or_ne k i with rfl | hki
  · by_cases h : x.testBit k <;> simp [Nat.testBit_land, Nat.testBit_two_pow, h]
  · by_cases h : x.testBit k <;>
      simp [Nat.testBit_land, Nat.testBit_two_pow, h, hki, Nat.zero_testBit]

theorem contains_two_pow (x k : Nat) : (x &&& 2 ^ k == 2 ^ k) = x.testBit k := by
  rw [and_two_pow]
  by_cases h : x.testBit k
  · simp [h]
  · have h' : x.testBit k = false := by simpa using h
    rw [h', if_neg (by simp [h']), beq_eq_false_iff_ne]
    exact (Nat.two_pow_pos k).ne

theorem testBit_of_lt {x n i : Nat} (hx : x < 2 ^ n) (hni : n ≤ i) :
    x.testBit i = false :=
  Nat.testBit_lt_two_pow (lt_of_lt_of_le hx (Nat.pow_le_pow_right (by omega) hni))

theorem testBit_MASK (i : Nat) :
    PHYS_ADDR_MASK.testBit i = (decide (10 ≤ i) && decide (i < 54)) := by
  have h : PHYS_ADDR_MASK = (2 ^ 44 - 1) <<< 10 := by decide
  rw [h, Nat.testBit_shiftLeft, Nat.testBit_two_pow_sub_one,
    decide_eq_decide.mpr (show i - 10 < 44 ↔ i < 54 by omega)]

theorem small_and_MASK {x : Nat} (hx : x < 2 ^ 10) : x &&& PHYS_ADDR_MASK = 0 := by
  apply Nat.eq_of_testBit_eq
  intro i
  rw [Nat.testBit_land, testBit_MASK, Nat.zero_testBit]
  by_cases h10 : 10 ≤ i
  · rw [testBit_of_lt hx h10]
    simp
  · simp [h10]

theorem small_and_ALL {x : Nat} (hx : x < 2 ^ 10) : x &&& PTEFlags.ALL = x := by
  have hall : PTEFlags.ALL = 2 ^ 10 - 1 := by decide
  apply Nat.eq_of_testBit_eq
  intro i
  rw [hall, Nat.testBit_land, Nat.testBit_two_pow_sub_one]
  by_cases h10 : i < 10
  · simp [h10]
  · rw [testBit_of_lt hx (by omega)]
    simp

theorem MASK_and_ALL : PHYS_ADDR_MASK &&& PTEFlags.ALL = 0 := by decide

theorem notMASK_and_MASK : not64 PHYS_ADDR_MASK &&& PHYS_ADDR_MASK = 0 := by decide

theorem enc_lt (f : Nat) : pteFlagsOfMappingFlags f < 2 ^ 10 := by
  unfold pteFlagsOfMappingFlags
  split
  · decide
  · repeat' apply Nat.or_lt_two_pow
    all_goals first
    | decide
    | (split <;> decide)

theorem page_flags_lt (f : Nat) :
    pteFlagsOfMappingFlags f ||| PTEFlags.A ||| PTEFlags.D < 2 ^ 10 :=
  Nat.or_lt_two_pow (Nat.or_lt_two_pow (enc_lt f) (by decide)) (by decide)

theorem aligned_low_bits {a i : Nat} (hal : a % 2 ^ 12 = 0) (hi : i < 12) :
    a.testBit i = false := by
  have h := (Nat.testBit_mod_two_pow a 12 i).symm
  rw [hal, Nat.zero_testBit] at h
  simpa [hi] using h

theorem addr_field_aligned {a : Nat} (ha : a < 2 ^ 56) (hal : a % 2 ^ 12 = 0) :
    (a >>> 2) &&& PHYS_ADDR_MASK = a >>> 2 := by
  apply Nat.eq_of_testBit_eq
  intro i
  rw [Nat.testBit_land, testBit_MASK, Nat.testBit_shiftRight]
  by_cases h10 : 10 ≤ i
  · by_cases h54 : i < 54
    · simp [h10, h54]
    · rw [testBit_of_lt ha (show 56 ≤ 2 + i by omega)]
      simp
  · rw [aligned_low_bits hal (show 2 + i < 12 by omega)]
    simp

theorem addr_roundtrip {a : Nat} (ha : a < 2 ^ 56) (hal : a % 2 ^ 12 = 0) :
    ((a >>> 2) &&& PHYS_ADDR_MASK) <<< 2 = a := by
  rw [addr_field_aligned ha hal, Nat.shiftRight_eq_div_pow, Nat.shiftLeft_eq]
  exact Nat.div_mul_cancel
    (dvd_trans (pow_dvd_pow 2 (by norm_num)) (Nat.dvd_of_mod_eq_zero hal))

end Rv64

namespace Rv64

/-- C1: for every physical address `a` with the low 12 bits zero and
`a < 2 ^ 56`, an entry built by `new_page` or `new_table` with address `a`,
or updated via `set_paddr` with `a`, returns exactly `a` from `paddr`. -/
theorem packed_paddr_roundtrip (a f p : Nat) (hh : Bool)
    (ha : a < 2 ^ 56) (hal : a % 2 ^ 12 = 0) :
    paddr (new_page a f hh) = a ∧ paddr (new_table a) = a ∧
      paddr (set_paddr p a) = a := by
  have key : ∀ x : Nat, x &&& PHYS_ADDR_MASK = 0 →
      paddr (x ||| ((a >>> 2) &&& PHYS_ADDR_MASK)) = a := by
    intro x hx
    unfold paddr
    rw [and_lor_right, hx, Nat.zero_or, Nat.and_assoc, Nat.and_self,
      addr_roundtrip ha hal]
  unfold new_page new_table set_paddr
  refine ⟨key _ (small_and_MASK (page_flags_lt f)),
    key _ (small_and_MASK (by decide)),
    key _ ?_⟩
  rw [Nat.and_assoc, notMASK_and_MASK, Nat.and_zero]

/-- Witness for C1 at address `0x80200000`, flags `READ|WRITE`, an arbitrary
previous entry `999`. -/
theorem packed_paddr_roundtrip_witness :
    paddr (new_page 0x80200000 3 false) = 0x80200000 ∧
      paddr (new_table 0x80200000) = 0x80200000 ∧
      paddr (set_paddr 999 0x80200000) = 0x80200000 :=
  packed_paddr_roundtrip 0x80200000 3 999 false (by decide) (by decide)

/-- C3: encoding the empty generic flag set yields the all-zero hardware
encoding, and decoding any hardware flag value whose `V` bit is clear yields
the empty generic set, regardless of the other bits. -/
theorem empty_flags_law :
    pteFlagsOfMappingFlags 0 = 0 ∧
      ∀ p : Nat, PTEFlags.contains p PTEFlags.V = false →
        mappingFlagsOfPTEFlags p = 0 := by
  refine ⟨by decide, fun p hp => ?_⟩
  unfold mappingFlagsOfPTEFlags
  rw [hp]
  rfl

/-- Witness for C3 at the hardware value `0x3FE` (every named bit except
`V`). -/
theorem empty_flags_law_witness :
    pteFlagsOfMappingFlags 0 = 0 ∧ mappingFlagsOfPTEFlags 0x3FE = 0 :=
  ⟨empty_flags_law.1, empty_flags_law.2 0x3FE (by decide)⟩

/-- C5: `new_page 0x80200000 {READ, WRITE} false` has low byte
`V|R|W|A|D = 0xC7` and `paddr` returns exactly `0x80200000`. -/
theorem example_page_encoding :
    new_page 0x80200000 3 false &&& 0xFF = 0xC7 ∧
      paddr (new_page 0x80200000 3 false) = 0x80200000 := by
  constructor <;> decide

/-- C10: the `is_huge` argument is ignored by the RISC-V encoding: both
`new_page` and `set_flags` return the same entry for `true` and `false`. -/
theorem huge_argument_ignored (a f p : Nat) :
    new_page a f true = new_page a f false ∧
      set_flags p f true = set_flags p f false :=
  ⟨rfl, rfl⟩

end Rv64

namespace Rv64

/-! Bridging lemmas: the status predicates read single hardware bits. -/

theorem is_present_testBit (p : Nat) : is_present p = p.testBit 0 := by
  unfold is_present PTEFlags.contains PTEFlags.from_bits_truncate
  rw [Nat.and_assoc, (by decide : PTEFlags.ALL &&& PTEFlags.V = PTEFlags.V),
    (by decide : PTEFlags.V = 2 ^ 0), contains_two_pow]

theorem is_dirty_testBit (p : Nat) : is_dirty p = p.testBit 7 := by
  unfold is_dirty PTEFlags.contains PTEFlags.from_bits_truncate
  rw [Nat.and_assoc, (by decide : PTEFlags.ALL &&& PTEFlags.D = PTEFlags.D),
    (by decide : PTEFlags.D = 2 ^ 7), contains_two_pow]

theorem is_accessed_testBit (p : Nat) : is_accessed p = p.testBit 6 := by
  unfold is_accessed PTEFlags.contains PTEFlags.from_bits_truncate
  rw [Nat.and_assoc, (by decide : PTEFlags.ALL &&& PTEFlags.A = PTEFlags.A),
    (by decide : PTEFlags.A = 2 ^ 6), contains_two_pow]

/-- C2: for every generic flag set containing READ or EXECUTE, encoding to
hardware `PTEFlags` and decoding back yields the set restricted to the
hardware-representable bits READ, WRITE, EXECUTE, USER, COW; in particular
the DEVICE and UNCACHED bits are dropped. -/
theorem flags_roundtrip (f : Nat) (hf : f < 128)
    (hrx : (MappingFlags.contains f MappingFlags.READ ||
        MappingFlags.contains f MappingFlags.EXECUTE) = true) :
    mappingFlagsOfPTEFlags (pteFlagsOfMappingFlags f) =
      f &&& (MappingFlags.READ ||| MappingFlags.WRITE ||| MappingFlags.EXECUTE |||
        MappingFlags.USER ||| MappingFlags.COW) ∧
      mappingFlagsOfPTEFlags (pteFlagsOfMappingFlags f) &&&
        (MappingFlags.DEVICE ||| MappingFlags.UNCACHED) = 0 := by
  revert hrx hf
  revert f
  decide

/-- Witness for C2 at the full set `{READ, WRITE, EXECUTE, USER, DEVICE,
UNCACHED, COW} = 127`. -/
theorem flags_roundtrip_witness :
    mappingFlagsOfPTEFlags (pteFlagsOfMappingFlags 127) =
      127 &&& (MappingFlags.READ ||| MappingFlags.WRITE ||| MappingFlags.EXECUTE |||
        MappingFlags.USER ||| MappingFlags.COW) ∧
      mappingFlagsOfPTEFlags (pteFlagsOfMappingFlags 127) &&&
        (MappingFlags.DEVICE ||| MappingFlags.UNCACHED) = 0 :=
  flags_roundtrip 127 (by decide) (by decide)

/-- C4: a `new_table` entry is present, decodes to the empty generic flag
set, is not huge, and carries none of the hardware R/W/X/U bits. -/
theorem table_entry_props (a : Nat) :
    is_present (new_table a) = true ∧ flags (new_table a) = 0 ∧
      is_huge (new_table a) = false ∧
      new_table a &&&
        (PTEFlags.R ||| PTEFlags.W ||| PTEFlags.X ||| PTEFlags.U) = 0 := by
  have htr : PTEFlags.from_bits_truncate (new_table a) = PTEFlags.V := by
    unfold new_table PTEFlags.from_bits_truncate
    rw [and_lor_right, Nat.and_assoc, MASK_and_ALL, Nat.and_zero, Nat.or_zero]
    decide
  refine ⟨?_, ?_, ?_, ?_⟩
  · unfold is_present
    rw [htr]
    decide
  · unfold flags
    rw [htr]
    decide
  · unfold is_huge
    rw [htr]
    decide
  · unfold new_table
    rw [and_lor_right, Nat.and_assoc,
      (by decide : PHYS_ADDR_MASK &&&
        (PTEFlags.R ||| PTEFlags.W ||| PTEFlags.X ||| PTEFlags.U) = 0),
      Nat.and_zero, Nat.or_zero]
    decide

/-- C6: entries produced by `new_page` and entries updated by `set_flags`
always report dirty and accessed: the hardware `A` and `D` bits are forced
unconditionally. -/
theorem status_bits_forced (a f p : Nat) (h1 h2 : Bool) :
    is_dirty (new_page a f h1) = true ∧ is_accessed (new_page a f h1) = true ∧
      is_dirty (set_flags p f h2) = true ∧
      is_accessed (set_flags p f h2) = true := by
  unfold new_page set_flags set_flags_arch
  simp [is_dirty_testBit, is_accessed_testBit, Nat.testBit_lor,
    (by decide : Nat.testBit PTEFlags.D 7 = true),
    (by decide : Nat.testBit PTEFlags.A 6 = true)]

end Rv64

namespace Rv64

/-! Facts about the 64-bit complement masks used by the bit setters. -/

theorem notD_testBit_7 : (not64 PTEFlags.D).testBit 7 = false := by decide

theorem notD_testBit_6 : (not64 PTEFlags.D).testBit 6 = true := by decide

theorem notA_testBit_6 : (not64 PTEFlags.A).testBit 6 = false := by decide

theorem notA_testBit_7 : (not64 PTEFlags.A).testBit 7 = true := by decide

theorem D_testBit_6 : Nat.testBit PTEFlags.D 6 = false := by decide

theorem A_testBit_7 : Nat.testBit PTEFlags.A 7 = false := by decide

theorem or_and_not_self (p b : Nat) (hb : b < 2 ^ 64) :
    (p ||| b) &&& not64 b = p &&& not64 b := by
  apply Nat.eq_of_testBit_eq
  intro i
  rw [Nat.testBit_land, Nat.testBit_land, Nat.testBit_lor]
  unfold not64
  rw [Nat.testBit_xor, Nat.testBit_two_pow_sub_one]
  by_cases h64 : i < 64
  · by_cases hb' : b.testBit i <;> simp [h64, hb']
  · rw [testBit_of_lt hb (by omega)]
    simp [h64]

/-- C8: `set_dirty` touches only the `D` bit and `set_accessed` touches only
the `A` bit: each leaves the other status bit (and every bit outside its
target, expressed through the 64-bit complement mask) unchanged, and passing
`false` clears exactly the targeted bit. -/
theorem dirty_accessed_independent (p : Nat) (b : Bool) :
    is_accessed (set_dirty p b) = is_accessed p ∧
      is_dirty (set_accessed p b) = is_dirty p ∧
      set_dirty p b &&& not64 PTEFlags.D = p &&& not64 PTEFlags.D ∧
      set_accessed p b &&& not64 PTEFlags.A = p &&& not64 PTEFlags.A ∧
      is_dirty (set_dirty p false) = false ∧
      is_accessed (set_accessed p false) = false := by
  refine ⟨?_, ?_, ?_, ?_, ?_, ?_⟩
  · rw [is_accessed_testBit, is_accessed_testBit]
    unfold set_dirty
    cases b
    · rw [if_neg (by simp), Nat.testBit_land, notD_testBit_6]
      simp
    · rw [if_pos rfl, Nat.testBit_lor, D_testBit_6]
      simp
  · rw [is_dirty_testBit, is_dirty_testBit]
    unfold set_accessed
    cases b
    · rw [if_neg (by simp), Nat.testBit_land, notA_testBit_7]
      simp
    · rw [if_pos rfl, Nat.testBit_lor, A_testBit_7]
      simp
  · unfold set_dirty
    cases b
    · rw [if_neg (by simp), Nat.and_assoc, Nat.and_self]
    · rw [if_pos rfl, or_and_not_self _ _ (by decide)]
  · unfold set_accessed
    cases b
    · rw [if_neg (by simp), Nat.and_assoc, Nat.and_self]
    · rw [if_pos rfl, or_and_not_self _ _ (by decide)]
  · rw [is_dirty_testBit]
    unfold set_dirty
    rw [if_neg (by simp), Nat.testBit_land, notD_testBit_7]
    simp
  · rw [is_accessed_testBit]
    unfold set_accessed
    rw [if_neg (by simp), Nat.testBit_land, notA_testBit_6]
    simp

/-- C9: `set_flags_arch` installs exactly the given raw hardware flag bits
and leaves the address field unchanged: `paddr` is the same before and
after. -/
theorem arch_flags_preserve_paddr (p f : Nat) (hf : f < 2 ^ 10) :
    paddr (set_flags_arch p f) = paddr p ∧
      set_flags_arch p f &&& PTEFlags.ALL = f := by
  constructor
  · unfold paddr set_flags_arch
    rw [and_lor_right, Nat.and_assoc, Nat.and_self, small_and_MASK hf,
      Nat.or_zero]
  · unfold set_flags_arch
    rw [and_lor_right, Nat.and_assoc, MASK_and_ALL, Nat.and_zero, Nat.zero_or,
      small_and_ALL hf]

/-- Witness for C9 at entry `0x123456789` and raw flags `0xC7`. -/
theorem arch_flags_preserve_paddr_witness :
    paddr (set_flags_arch 0x123456789 0xC7) = paddr 0x123456789 ∧
      set_flags_arch 0x123456789 0xC7 &&& PTEFlags.ALL = 0xC7 :=
  arch_flags_preserve_paddr 0x123456789 0xC7 (by decide)

end Rv64

namespace Rv64

/-- One in-place mutation of an `Rv64PTE`, covering the mutating operations
of the `GenericPTE` trait implementation. -/
inductive Op where
  | opSetPaddr : Nat → Op
  | opSetFlags : Nat → Bool → Op
  | opSetFlagsArch : Nat → Op
  | opSetDirty : Bool → Op
  | opSetAccessed : Bool → Op
  | opClear : Op

/-- Run one mutation on an entry. -/
def applyOp (p : Nat) : Op → Nat
  | .opSetPaddr a => set_paddr p a
  | .opSetFlags f h => set_flags p f h
  | .opSetFlagsArch f => set_flags_arch p f
  | .opSetDirty b => set_dirty p b
  | .opSetAccessed b => set_accessed p b
  | .opClear => clear p

/-- Run a sequence of mutations left to right. -/
def applyOps (p : Nat) : List Op → Nat
  | [] => p
  | o :: os => applyOps (applyOp p o) os

/-- Well-formed operation: a raw `PTEFlags` argument holds only the named
hardware bits (the bitflags type's universe, bits 0..10). -/
def opWF : Op → Bool
  | .opSetFlagsArch f => decide (f < 2 ^ 10)
  | _ => true

theorem new_page_lt (a f : Nat) (h : Bool) : new_page a f h < 2 ^ 54 := by
  unfold new_page
  exact Nat.or_lt_two_pow (lt_of_lt_of_le (page_flags_lt f) (by norm_num))
    (lt_of_le_of_lt Nat.and_le_right (by decide))

theorem new_table_lt (a : Nat) : new_table a < 2 ^ 54 := by
  unfold new_table
  exact Nat.or_lt_two_pow (by decide) (lt_of_le_of_lt Nat.and_le_right (by decide))

theorem applyOp_lt {p : Nat} (hp : p < 2 ^ 54) (o : Op) (ho : opWF o = true) :
    applyOp p o < 2 ^ 54 := by
  cases o with
  | opSetPaddr a =>
      simp only [applyOp]
      unfold set_paddr
      exact Nat.or_lt_two_pow (lt_of_le_of_lt Nat.and_le_left hp)
        (lt_of_le_of_lt Nat.and_le_right (by decide))
  | opSetFlags f h =>
      simp only [applyOp]
      unfold set_flags set_flags_arch
      exact Nat.or_lt_two_pow (lt_of_le_of_lt Nat.and_le_left hp)
        (lt_of_lt_of_le (page_flags_lt f) (by norm_num))
  | opSetFlagsArch f =>
      have hf : f < 2 ^ 10 := by simpa [opWF] using ho
      simp only [applyOp]
      unfold set_flags_arch
      exact Nat.or_lt_two_pow (lt_of_le_of_lt Nat.and_le_left hp)
        (lt_of_lt_of_le hf (by norm_num))
  | opSetDirty b =>
      simp only [applyOp]
      unfold set_dirty
      cases b
      · rw [if_neg (by simp)]
        exact lt_of_le_of_lt Nat.and_le_left hp
      · rw [if_pos rfl]
        exact Nat.or_lt_two_pow hp (by decide)
  | opSetAccessed b =>
      simp only [applyOp]
      unfold set_accessed
      cases b
      · rw [if_neg (by simp)]
        exact lt_of_le_of_lt Nat.and_le_left hp
      · rw [if_pos rfl]
        exact Nat.or_lt_two_pow hp (by decide)
  | opClear =>
      simp only [applyOp]
      unfold clear
      decide

theorem applyOps_lt {p : Nat} (hp : p < 2 ^ 54) {ops : List Op}
    (hwf : ∀ o ∈ ops, opWF o = true) : applyOps p ops < 2 ^ 54 := by
  induction ops generalizing p with
  | nil => simpa [applyOps] using hp
  | cons o os ih =>
      rw [applyOps]
      exact ih (applyOp_lt hp o (hwf o (List.mem_cons_self o os)))
        (fun o' ho' => hwf o' (List.mem_cons_of_mem o ho'))

theorem high_mask_zero {x : Nat} (hx : x < 2 ^ 54) :
    x &&& not64 (2 ^ 54 - 1) = 0 := by
  apply Nat.eq_of_testBit_eq
  intro i
  rw [Nat.testBit_land, Nat.zero_testBit]
  unfold not64
  rw [Nat.testBit_xor, Nat.testBit_two_pow_sub_one, Nat.testBit_two_pow_sub_one]
  by_cases h54 : i < 54
  · simp [h54, show i < 64 by omega]
  · rw [testBit_of_lt hx (by omega)]
    simp

/-- C7: starting from an entry produced by `new_page`, `new_table` or
`empty`, every sequence of the mutating operations (with raw `PTEFlags`
arguments drawn from the named hardware bits) keeps every raw bit outside
the flag field (bits 0..10) and the address field (bits 10..54) zero: the
value stays below `2 ^ 54`, so bits 54 through 63 are all clear. -/
theorem mutation_invariant (init : Nat)
    (hinit : (∃ a f h, init = new_page a f h) ∨ (∃ a, init = new_table a) ∨
      init = empty)
    (ops : List Op) (hwf : ∀ o ∈ ops, opWF o = true) :
    applyOps init ops < 2 ^ 54 ∧
      applyOps init ops &&& not64 (2 ^ 54 - 1) = 0 := by
  have h0 : init < 2 ^ 54 := by
    rcases hinit with ⟨a, f, h, rfl⟩ | ⟨a, rfl⟩ | rfl
    · exact new_page_lt a f h
    · exact new_table_lt a
    · decide
  have h1 := applyOps_lt h0 hwf
  exact ⟨h1, high_mask_zero h1⟩

/-- Witness for C7: a six-step mutation sequence starting from a
`new_page` entry. -/
theorem mutation_invariant_witness :
    applyOps (new_page 0x80200000 3 false)
      [Op.opSetDirty false, Op.opSetPaddr 0x80100000, Op.opSetFlagsArch 0xC7,
        Op.opSetFlags 5 true, Op.opSetAccessed true, Op.opClear] < 2 ^ 54 ∧
      applyOps (new_page 0x80200000 3 false)
        [Op.opSetDirty false, Op.opSetPaddr 0x80100000, Op.opSetFlagsArch 0xC7,
          Op.opSetFlags 5 true, Op.opSetAccessed true, Op.opClear] &&&
        not64 (2 ^ 54 - 1) = 0 :=
  mutation_invariant (new_page 0x80200000 3 false)
    (Or.inl ⟨0x80200000, 3, false, rfl⟩)
    [Op.opSetDirty false, Op.opSetPaddr 0x80100000, Op.opSetFlagsArch 0xC7,
      Op.opSetFlags 5 true, Op.opSetAccessed true, Op.opClear]
    (by decide)

end Rv64
